import Mathlib

/-!
Shallow embedding of the ETL normalization pipeline of
`src/ai-adoption-dashboard/src/data_processor.py` (class `DataProcessor`):
the employee-roster map builder (`_load_employee_mapping`), the wide-format
normalizer (`process_blueflame`), the long-format normalizer
(`process_openai`) and the unifier/deduplicator (`get_unified_data`).

Modelling conventions:
* a CSV cell is `Option String`; `none` models a missing value (pandas NaN);
* numeric cells hold integer numerals, parsed by `parseIntStr`
  (`pd.to_numeric(..., errors='coerce')` restricted to integer inputs);
* a pandas timestamp is the `Date` structure below; `Option Date` with
  `none` models `NaT`;
* Python string operations (`lower`, `strip`, `split`, `replace`, `title`,
  substring tests, the two regexes of the source) are implemented over
  `String.data` character lists so that everything reduces in the kernel;
  `lower`/`strip` are ASCII-faithful, which covers the identities involved.
-/

namespace AdoptionMetrics

/-- A pandas timestamp produced by date parsing (year, month, day). -/
structure Date where
  year : Nat
  month : Nat
  day : Nat
deriving DecidableEq, Repr

/-- A CSV cell: `none` models a missing value (pandas `NaN`). -/
abbrev Cell := Option String

/-- One row of the unified output table (`UsageRecord` of the spec).
`date = none` models pandas `NaT`. -/
structure UsageRecord where
  date : Option Date
  email : String
  name : String
  department : String
  tool : String
  feature : String
  count : Int
deriving DecidableEq, Repr

/-! ## Character-list string primitives -/

/-- Python `str.lower()` (ASCII). -/
def strLower (s : String) : String := ⟨s.data.map Char.toLower⟩

/-- Whitespace trimming of a character list from both ends
(Python `str.strip()` on the usual whitespace characters). -/
def trimChars (cs : List Char) : List Char :=
  ((cs.dropWhile Char.isWhitespace).reverse.dropWhile Char.isWhitespace).reverse

/-- Python `str.strip()`. -/
def strStrip (s : String) : String := ⟨trimChars s.data⟩

/-- Models `needle` occurs as a leading segment of `haystack`. -/
def leadsList : List Char → List Char → Bool
  | [], _ => true
  | _ :: _, [] => false
  | a :: as, b :: bs => a == b && leadsList as bs

/-- Models `needle` occurs somewhere inside `haystack`
(Python `needle in haystack`). -/
def hasSubstrList (needle : List Char) : List Char → Bool
  | [] => leadsList needle []
  | c :: rest => leadsList needle (c :: rest) || hasSubstrList needle rest

/-- Python `needle in s` for strings. -/
def strHasSubstr (needle s : String) : Bool :=
  hasSubstrList needle.data s.data

/-- Python `"sep".split` on a single-character separator. -/
def splitOnChar (sep : Char) : List Char → List (List Char)
  | [] => [[]]
  | c :: rest =>
    match splitOnChar sep rest with
    | [] => if c = sep then [[], []] else [[c]]
    | g :: gs => if c = sep then [] :: g :: gs else (c :: g) :: gs

/-- Parse a nonempty string of decimal digits. -/
def parseNatChars (cs : List Char) : Option Nat :=
  if cs.isEmpty then none
  else cs.foldl (fun acc c =>
    match acc with
    | none => none
    | some n => if c.isDigit then some (n * 10 + (c.toNat - 48)) else none) (some 0)

/-- Models `pd.to_numeric(..., errors='coerce')` on an (optionally signed) integer
numeral; any other string coerces to `none` (NaN). -/
def parseIntStr (s : String) : Option Int :=
  match trimChars s.data with
  | '-' :: rest => (parseNatChars rest).map (fun n => -(n : Int))
  | cs => (parseNatChars cs).map (fun n => (n : Int))

/-- Decimal digits of a natural number (Python `str(n)`), via fuel. -/
def natToCharsAux : Nat → Nat → List Char
  | 0, _ => []
  | fuel + 1, n =>
    if n < 10 then [Char.ofNat (48 + n)]
    else natToCharsAux fuel (n / 10) ++ [Char.ofNat (48 + n % 10)]

/-- Python `str(n)` for a natural number. -/
def natToChars (n : Nat) : List Char := natToCharsAux (n + 1) n

/-- Python `x.split('@')[0]`: everything before the first `'@'`
(the whole string when there is no `'@'`). -/
def localPartOf (s : String) : String := ⟨s.data.takeWhile (· ≠ '@')⟩

/-- Python `str.title()`: upper-case each alphabetic character that starts
an alphabetic run, lower-case the rest. -/
def titleChars : List Char → Bool → List Char
  | [], _ => []
  | c :: rest, prevAlpha =>
    (if c.isAlpha then (if prevAlpha then c.toLower else c.toUpper) else c)
      :: titleChars rest c.isAlpha

/-- Python `s.title()`. -/
def strTitle (s : String) : String := ⟨titleChars s.data false⟩

/-- Python `s.replace('.', ' ')`. -/
def dotToSpace (s : String) : String :=
  ⟨s.data.map (fun c => if c = '.' then ' ' else c)⟩

/-- Models `data_processor.py:105,133`: the display name derived from an email:
`email.split('@')[0].replace('.', ' ').title()`. -/
def nameOfEmail (email : String) : String :=
  strTitle (dotToSpace (localPartOf email))

/-! ## The three regexes of `data_processor.py` -/

/-- After `-` in the date-header pattern: `[A-Z][a-z]{2}` then anything. -/
def monHeadTail : List Char → Bool
  | '-' :: u :: l1 :: l2 :: _ => u.isUpper && l1.isLower && l2.isLower
  | _ => false

/-- Models `data_processor.py:62`: `re.match(r'^\d{1,2}-[A-Z][a-z]{2}', c)` —
one or two digits, a dash, a capitalized three-letter month stem,
arbitrary tail. -/
def isDateHeader (c : String) : Bool :=
  match c.data with
  | d1 :: rest =>
    d1.isDigit &&
      (monHeadTail rest ||
        (match rest with
         | d2 :: rest2 => d2.isDigit && monHeadTail rest2
         | [] => false))
  | [] => false

/-- Scan for a literal `'.'` followed by one `[^@]` character, stopping at
the next `'@'` (used after the `@` of the email regex; the dot and the
following character must sit inside the `[^@]+\.[^@]` window). -/
def dotThenNonAt : List Char → Bool
  | [] => false
  | c :: rest =>
    if c = '@' then false
    else if c = '.' then
      match rest with
      | [] => false
      | d :: _ => if d = '@' then false else true
    else dotThenNonAt rest

/-- After the first `'@'`: `[^@]+\.[^@]+` as a further prefix. -/
def afterAtPart : List Char → Bool
  | [] => false
  | c :: rest => if c = '@' then false else dotThenNonAt rest

/-- Skip the `[^@]+` before the `'@'` (at least one character precedes). -/
def beforeAtScan : List Char → Bool
  | [] => false
  | c :: rest => if c = '@' then afterAtPart rest else beforeAtScan rest

/-- Models `data_processor.py:102`: `Series.str.match(r'^[^@]+@[^@]+\.[^@]+')` —
the regex matches a prefix of the string. -/
def matchEmailShape (s : String) : Bool :=
  match s.data with
  | [] => false
  | c :: rest => if c = '@' then false else beforeAtScan rest

/-- Models `data_processor.py:84`: `re.search(r'20\d{2}', filename)` — the first
occurrence of `20` followed by two digits, as the matched characters. -/
def findYearChars : List Char → Option (List Char)
  | c1 :: c2 :: c3 :: c4 :: rest =>
    if c1 = '2' ∧ c2 = '0' ∧ c3.isDigit ∧ c4.isDigit then some [c1, c2, c3, c4]
    else findYearChars (c2 :: c3 :: c4 :: rest)
  | _ => none

/-! ## Date parsing (`pd.to_datetime(..., format='%d-%b-%Y')`) -/

/-- The `%b` month abbreviations, lower-cased (`strptime` matches the
month name case-insensitively). -/
def monthAbbrevs : List (List Char) :=
  ["jan".data, "feb".data, "mar".data, "apr".data, "may".data, "jun".data,
   "jul".data, "aug".data, "sep".data, "oct".data, "nov".data, "dec".data]

/-- Month number (1–12) of a `%b` abbreviation. -/
def monthNumOf (cs : List Char) : Option Nat :=
  (monthAbbrevs.findIdx? (· = cs.map Char.toLower)).map (· + 1)

/-- Gregorian leap year. -/
def isLeapYear (y : Nat) : Bool :=
  (y % 4 = 0 && y % 100 ≠ 0) || y % 400 = 0

/-- Number of days of month `m` in year `y`. -/
def daysInMonth (y m : Nat) : Nat :=
  if m = 2 then (if isLeapYear y then 29 else 28)
  else if m = 4 ∨ m = 6 ∨ m = 9 ∨ m = 11 then 30
  else 31

/-- Models `pd.to_datetime(s, format='%d-%b-%Y', errors='coerce')`: an exact
`day-month-year` parse; failure yields `none` (`NaT`). -/
def parseDMonY (cs : List Char) : Option Date :=
  match splitOnChar '-' cs with
  | [d, m, y] =>
    match parseNatChars d, monthNumOf m, parseNatChars y with
    | some dn, some mn, some yn =>
      if 1 ≤ dn ∧ dn ≤ daysInMonth yn mn then some ⟨yn, mn, dn⟩ else none
    | _, _, _ => none
  | _ => none

/-! ## The employee roster map (`_load_employee_mapping`) -/

/-- The roster map is an association list from normalized email to
department, with unique keys (built below). -/
abbrev EmpMap := List (String × String)

/-- First-match association lookup (Python `dict` lookup; the maps built
below have unique keys, so first-match equals the dict's last-write). -/
def assocGet : EmpMap → String → Option String
  | [], _ => none
  | p :: rest, k => if p.1 = k then some p.2 else assocGet rest k

/-- Models `dict.get(email, 'Unassigned')` / `.map(...).fillna('Unassigned')`. -/
def mapGet (m : EmpMap) (k : String) : String :=
  match assocGet m k with
  | some v => v
  | none => "Unassigned"

/-- Models `df.drop_duplicates(subset=[email_col], keep='last')`: keep a row only
when no later row carries the same key. -/
def dropDupKeepLast : List (String × String) → List (String × String)
  | [] => []
  | p :: rest =>
    (if rest.any (fun q => q.1 == p.1) then [] else [p]) ++ dropDupKeepLast rest

/-- Models `data_processor.py:40-47`: normalize the roster rows
(email lower+strip, department strip), drop duplicate emails keeping the
last row, and build the email → department dictionary. -/
def buildEmployeeMap (roster : List (String × String)) : EmpMap :=
  dropDupKeepLast (roster.map (fun p => (strStrip (strLower p.1), strStrip p.2)))

/-! ## Long-format normalizer (`process_openai`, lines 116-184) -/

/-- One row of a long-format (OpenAI) export, after the column-name
normalization of line 119.  `email` is `str(row.get('email', ''))`
(so a missing identity column reads as `""`).  `period_start = none`
models a missing `period_start` column or an NaN cell — `row.get`
then yields `None`/`NaN` and `pd.to_datetime` returns `NaT` without
raising.  The metric fields are `row.get(col, 0)` after
`pd.to_numeric`, so a missing metric column reads as `0`. -/
structure OpenAIRow where
  email : String
  period_start : Option String
  messages : Int
  tool_messages : Int
  gpt_messages : Int
  project_messages : Int
deriving DecidableEq, Repr

/-- Models `pd.to_datetime(row.get('period_start'))` under a general timestamp
parser `pp` (pandas' flexible parser, supplied as a parameter):
outer `none` models the `except: continue` (the parser raised), inner
`none` models `NaT` (missing column). -/
def openaiDateOf (pp : String → Option Date) (row : OpenAIRow) :
    Option (Option Date) :=
  match row.period_start with
  | none => some none
  | some s =>
    match pp s with
    | some d => some (some d)
    | none => none

/-- Models `str(row.get('email', '')).lower().strip()` (line 122). -/
def openaiEmail (row : OpenAIRow) : String := strStrip (strLower row.email)

/-- The records that one long-format row contributes
(`data_processor.py:121-179`). -/
def openaiRowRecords (em : EmpMap) (pp : String → Option Date)
    (row : OpenAIRow) : List UsageRecord :=
  let email := openaiEmail row
  if email = "" then []
  else if ¬ email.data.contains '@' then []
  else if strHasSubstr "total" (strLower email) then []
  else
    match openaiDateOf pp row with
    | none => []
    | some date =>
      let name := nameOfEmail email
      let dept := mapGet em email
      let sub_total := row.tool_messages + row.gpt_messages + row.project_messages
      -- LOGIC CHECK of lines 157-162, then the safety clamp of 165-166
      let std0 : Int :=
        if row.messages < sub_total then row.messages
        else row.messages - sub_total
      let std : Int := if std0 < 0 then 0 else std0
      (if std > 0 then
        [⟨date, email, name, dept, "ChatGPT", "Standard Chat", std⟩] else [])
      ++ (if row.tool_messages > 0 then
        [⟨date, email, name, dept, "ChatGPT", "Tool Messages", row.tool_messages⟩] else [])
      ++ (if row.gpt_messages > 0 then
        [⟨date, email, name, dept, "ChatGPT", "GPT Messages", row.gpt_messages⟩] else [])
      ++ (if row.project_messages > 0 then
        [⟨date, email, name, dept, "ChatGPT", "Project Messages", row.project_messages⟩] else [])

/-- Models `DataProcessor.process_openai` over the rows of one export file. -/
def process_openai (em : EmpMap) (pp : String → Option Date)
    (rows : List OpenAIRow) : List UsageRecord :=
  rows.flatMap (openaiRowRecords em pp)

/-! ## Wide-format normalizer (`process_blueflame`, lines 56-114) -/

/-- A wide-format (BlueFlame) export: column headers plus rows of cells,
aligned positionally with the headers. -/
structure BFTable where
  cols : List String
  rows : List (List Cell)
deriving DecidableEq, Repr

/-- A wide-format input file handed to `get_unified_data`. -/
structure BFFile where
  table : BFTable
  filename : String
deriving DecidableEq, Repr

/-- Cell of a row under a named column (first header match). -/
def cellAt (headers : List String) (row : List Cell) (c : String) : Cell :=
  match headers.findIdx? (· = c) with
  | some i => row.getD i none
  | none => none

/-- Models `data_processor.py:69-72`: the identity column — first header whose
lower-casing contains both `user` and `id`, else first containing
`email`. -/
def pickUserCol (headers : List String) : Option String :=
  match headers.find? (fun c =>
      strHasSubstr "user" (strLower c) && strHasSubstr "id" (strLower c)) with
  | some c => some c
  | none => headers.find? (fun c => strHasSubstr "email" (strLower c))

/-- Models `df.melt(id_vars=[user_col], value_vars=date_cols, ...)`: one entry
per (date column, row), column-major, as (user cell, date header,
count cell). -/
def bfMelt (headers : List String) (rows : List (List Cell))
    (userCol : String) (dateCols : List String) :
    List (Cell × String × Cell) :=
  dateCols.flatMap (fun c =>
    rows.map (fun r => (cellAt headers r userCol, c, cellAt headers r c)))

/-- Models `melted.dropna(subset=['Count'])` (line 78). -/
def bfDropNa (l : List (Cell × String × Cell)) : List (Cell × String × String) :=
  l.filterMap (fun m =>
    match m.2.2 with
    | none => none
    | some s => some (m.1, m.2.1, s))

/-- Models `pd.to_numeric(..., errors='coerce').fillna(0)` then `Count > 0`
(lines 79-80). -/
def bfPositive (l : List (Cell × String × String)) : List (Cell × String × Int) :=
  (l.map (fun m => (m.1, m.2.1, (parseIntStr m.2.2).getD 0))).filter
    (fun m => 0 < m.2.2)

/-- Models `astype(str)` of a cell: NaN prints as `"nan"`. -/
def cellStr : Cell → String
  | none => "nan"
  | some s => s

/-- The year appended to each date header (lines 83-88): the first
`20\d{2}` match in the filename, else `str(current year)`. -/
def bfYearChars (filename : String) (nowYear : Nat) : List Char :=
  (findYearChars filename.data).getD (natToChars nowYear)

/-- One melted row with its derived columns (lines 88-108).  The source
assigns `Department`/`Name` after the identity filters; both depend only
on `Email`, which the filters preserve, so computing them here first is
equivalent. -/
structure BFEntry where
  date : Option Date
  email : String
  name : String
  department : String
  count : Int
deriving DecidableEq, Repr

/-- Derived columns of one melted row: parsed `Date` (header + year),
normalized `Email`, `Name`, `Department`. -/
def bfToEntry (em : EmpMap) (yearCs : List Char) (m : Cell × String × Int) :
    BFEntry :=
  let email := strStrip (strLower (cellStr m.1))
  { date := parseDMonY (trimChars m.2.1.data ++ '-' :: yearCs)
    email := email
    name := nameOfEmail email
    department := mapGet em email
    count := m.2.2 }

/-- All derived entries of one wide-format file, before the identity
filters (lines 77-88 plus the derived columns). -/
def bfEntries (em : EmpMap) (headers : List String) (rows : List (List Cell))
    (userCol : String) (dateCols : List String) (yearCs : List Char) :
    List BFEntry :=
  (bfPositive (bfDropNa (bfMelt headers rows userCol dateCols))).map
    (bfToEntry em yearCs)

/-- The blacklist of line 98. -/
def bfBlacklist : List String := ["total", "sum", "average", "count"]

/-- Models `Email.str.contains('total|sum|average|count', case=False)` (line 99). -/
def bfBlacklistHit (email : String) : Bool :=
  bfBlacklist.any (fun w => strHasSubstr w (strLower email))

/-- The identity filters of lines 94-102: drop `"nan"` and empty emails,
drop blacklist hits, require the email-shape regex. -/
def bfEmailKeep (email : String) : Bool :=
  email ≠ "nan" && email ≠ "" && !bfBlacklistHit email && matchEmailShape email

/-- The group key of the `groupby` of line 112 (Tool and Feature are the
constants of lines 107-108 and do not discriminate). -/
abbrev BFKey := Option Date × String × String × String

/-- Key of an entry. -/
def bfKeyOf (e : BFEntry) : BFKey := (e.date, e.email, e.name, e.department)

/-- First occurrence of each key, in input order (structural, with a
`seen` accumulator). -/
def firstKeys {κ : Type} [DecidableEq κ] : List κ → List κ → List κ
  | [], _ => []
  | k :: rest, seen =>
    if k ∈ seen then firstKeys rest seen
    else k :: firstKeys rest (k :: seen)

/-- Models `groupby([...], as_index=False)['Count'].sum()` (line 112): one output
row per distinct key, `Count` summed over the group.  (pandas sorts the
group keys; output order is irrelevant to every property below.)
`groupby` drops keys containing NaT, which the caller filters first. -/
def bfGroup (l : List BFEntry) : List UsageRecord :=
  (firstKeys (l.map bfKeyOf) []).map (fun k =>
    { date := k.1, email := k.2.1, name := k.2.2.1, department := k.2.2.2
      tool := "BlueFlame", feature := "BlueFlame Messages"
      count := ((l.filter (fun e => bfKeyOf e = k)).map (·.count)).sum })

/-- Models `DataProcessor.process_blueflame`. -/
def process_blueflame (em : EmpMap) (t : BFTable) (filename : String)
    (nowYear : Nat) : List UsageRecord :=
  let headers := t.cols.map (fun c => strStrip c)
  let dateCols := headers.filter isDateHeader
  if dateCols.isEmpty then []
  else
    match pickUserCol headers with
    | none => []
    | some userCol =>
      bfGroup ((bfEntries em headers t.rows userCol dateCols
          (bfYearChars filename nowYear)).filter
        (fun e => bfEmailKeep e.email && e.date.isSome))

/-! ## Unifier / deduplicator (`get_unified_data`, lines 186-228) -/

/-- The column schema of `_get_empty_schema` (line 54), also the schema of
every frame the two normalizers return. -/
def usageSchema : List String :=
  ["Date", "Email", "Name", "Department", "Tool", "Feature", "Count"]

/-- A pandas DataFrame result: its column schema and its rows. -/
structure ResultTable where
  schema : List String
  rows : List UsageRecord
deriving DecidableEq, Repr

/-- The deduplication key of line 219:
`subset=['Date', 'Email', 'Tool', 'Feature']`. -/
def dkey (r : UsageRecord) : Option Date × String × String × String :=
  (r.date, r.email, r.tool, r.feature)

/-- Models `drop_duplicates(subset=..., keep='first')`: keep each record whose
key was not seen earlier. -/
def dropDupRecs : List UsageRecord → List (Option Date × String × String × String) →
    List UsageRecord
  | [], _ => []
  | r :: rest, seen =>
    if dkey r ∈ seen then dropDupRecs rest seen
    else r :: dropDupRecs rest (dkey r :: seen)

/-- The concatenation of line 214: every record of every processed file,
wide-format files first, in file order. -/
def allRecords (em : EmpMap) (nowYear : Nat) (pp : String → Option Date)
    (bf : List BFFile) (oa : List (List OpenAIRow)) : List UsageRecord :=
  ((bf.map (fun f => process_blueflame em f.table f.filename nowYear)) ++
    (oa.map (process_openai em pp))).flatten

/-- Models `DataProcessor.get_unified_data`: with no input files the empty-schema
frame; otherwise concatenate all per-file frames and drop duplicate keys,
keeping the first occurrence.  All per-file frames carry `usageSchema`,
so the result always does (the `Feature` backfill of lines 225-226 never
fires). -/
def get_unified_data (em : EmpMap) (nowYear : Nat) (pp : String → Option Date)
    (bf : List BFFile) (oa : List (List OpenAIRow)) : ResultTable :=
  if bf.isEmpty ∧ oa.isEmpty then ⟨usageSchema, []⟩
  else ⟨usageSchema, dropDupRecs (allRecords em nowYear pp bf oa) []⟩

/-! ## Characterizations of the dedup and grouping combinators -/

theorem mem_firstKeys {κ : Type} [DecidableEq κ] (l : List κ) (seen : List κ)
    (k : κ) : k ∈ firstKeys l seen ↔ k ∉ seen ∧ k ∈ l := by
  induction l generalizing seen with
  | nil => simp [firstKeys]
  | cons a rest ih =>
    by_cases h : a ∈ seen
    · rw [firstKeys, if_pos h, ih]
      by_cases hk : k = a
      · subst hk
        simp [h]
      · simp [hk]
    · rw [firstKeys, if_neg h]
      by_cases hk : k = a
      · subst hk
        simp [h]
      · simp [ih, hk]

theorem mem_dropDupRecs (l : List UsageRecord)
    (seen : List (Option Date × String × String × String)) (x : UsageRecord) :
    x ∈ dropDupRecs l seen ↔
      dkey x ∉ seen ∧ l.find? (fun b => decide (dkey b = dkey x)) = some x := by
  induction l generalizing seen with
  | nil => simp [dropDupRecs]
  | cons r rest ih =>
    by_cases h : dkey r ∈ seen
    · rw [dropDupRecs, if_pos h, ih]
      by_cases hk : dkey r = dkey x
      · have hx : dkey x ∈ seen := hk ▸ h
        simp [hx]
      · simp only [List.find?_cons_eq_some, decide_eq_true_eq, hk, false_and, false_or,
          Bool.not_eq_eq_eq_not, Bool.not_true, decide_eq_false_iff_not, not_false_iff, true_and]
    · rw [dropDupRecs, if_neg h]
      by_cases hk : dkey r = dkey x
      · by_cases hx : x = r
        · subst hx
          simp [List.find?_cons_eq_some, h]
        · simp only [List.mem_cons, hx, false_or, ih, List.mem_cons,
            List.find?_cons_eq_some, decide_eq_true_eq]
          constructor
          · rintro ⟨hns, -⟩
            exact absurd (Or.inl hk.symm) hns
          · rintro ⟨-, (⟨-, hrx⟩ | ⟨hnk, -⟩)⟩
            · exact absurd hrx.symm hx
            · simp [hk] at hnk
      · have hx : x ≠ r := fun hh => hk (by rw [hh])
        simp only [List.mem_cons, hx, false_or, ih, List.mem_cons,
          List.find?_cons_eq_some, decide_eq_true_eq, hk, false_and, false_or,
          Bool.not_eq_eq_eq_not, Bool.not_true, decide_eq_false_iff_not, not_false_iff, true_and]
        have hk' : ¬ dkey x = dkey r := fun hh => hk hh.symm
        simp [hk']

theorem dkey_mem_dropDupRecs (l : List UsageRecord)
    (seen : List (Option Date × String × String × String))
    (k : Option Date × String × String × String) :
    k ∈ (dropDupRecs l seen).map dkey ↔ k ∉ seen ∧ k ∈ l.map dkey := by
  induction l generalizing seen with
  | nil => simp [dropDupRecs]
  | cons r rest ih =>
    by_cases h : dkey r ∈ seen
    · rw [dropDupRecs, if_pos h]
      by_cases hk : k = dkey r
      · subst hk
        simp [ih, h]
      · simp [ih, hk]
    · rw [dropDupRecs, if_neg h]
      by_cases hk : k = dkey r
      · subst hk
        simp [h]
      · simp [ih, hk]

theorem mem_of_mem_dropDupRecs {l : List UsageRecord}
    {seen : List (Option Date × String × String × String)} {x : UsageRecord}
    (h : x ∈ dropDupRecs l seen) : x ∈ l :=
  List.mem_of_find?_eq_some ((mem_dropDupRecs l seen x).1 h).2

/-! ## Anatomy of the records emitted by the long-format normalizer -/

theorem mem_openaiRowRecords {em : EmpMap} {pp : String → Option Date}
    {row : OpenAIRow} {r : UsageRecord} (hr : r ∈ openaiRowRecords em pp row) :
    r.email = openaiEmail row ∧
    r.department = mapGet em (openaiEmail row) ∧
    r.tool = "ChatGPT" ∧
    ¬ openaiEmail row = "" ∧
    (openaiEmail row).data.contains '@' = true ∧
    strHasSubstr "total" (strLower (openaiEmail row)) = false ∧
    openaiDateOf pp row = some r.date := by
  simp only [openaiRowRecords] at hr
  by_cases h1 : openaiEmail row = ""
  · rw [if_pos h1] at hr
    exact absurd hr (List.not_mem_nil r)
  rw [if_neg h1] at hr
  by_cases h2 : (openaiEmail row).data.contains '@' = true
  · rw [if_neg (not_not_intro h2)] at hr
    by_cases h3 : strHasSubstr "total" (strLower (openaiEmail row)) = true
    · rw [if_pos h3] at hr
      exact absurd hr (List.not_mem_nil r)
    rw [if_neg h3] at hr
    cases hd : openaiDateOf pp row with
    | none =>
      rw [hd] at hr
      exact absurd hr (List.not_mem_nil r)
    | some d =>
      rw [hd] at hr
      simp only [List.mem_append] at hr
      have h3' : strHasSubstr "total" (strLower (openaiEmail row)) = false :=
        Bool.not_eq_true _ ▸ h3
      rcases hr with ((hr | hr) | hr) | hr <;>
        · rw [List.mem_ite_nil_right, List.mem_singleton] at hr
          rw [hr.2]
          exact ⟨rfl, rfl, rfl, h1, h2, h3', by simp [hd]⟩
  · rw [if_pos (by simpa using h2)] at hr
    exact absurd hr (List.not_mem_nil r)

theorem openaiRowRecords_of_email_empty {em : EmpMap} {pp : String → Option Date}
    {row : OpenAIRow} (h : openaiEmail row = "") :
    openaiRowRecords em pp row = [] := by
  simp [openaiRowRecords, h]

theorem openaiRowRecords_of_bad_date {em : EmpMap} {pp : String → Option Date}
    {row : OpenAIRow} {s : String} (hs : row.period_start = some s)
    (hp : pp s = none) : openaiRowRecords em pp row = [] := by
  have hd : openaiDateOf pp row = none := by
    simp [openaiDateOf, hs, hp]
  simp only [openaiRowRecords, hd]
  split_ifs <;> rfl

/-! ## Anatomy of the records emitted by the wide-format normalizer -/

theorem bfEntries_name_dept {em : EmpMap} {hs : List String}
    {rows : List (List Cell)} {uc : String} {dcs : List String}
    {ycs : List Char} {e : BFEntry}
    (he : e ∈ bfEntries em hs rows uc dcs ycs) :
    e.name = nameOfEmail e.email ∧ e.department = mapGet em e.email := by
  obtain ⟨m, -, rfl⟩ := List.mem_map.1 he
  exact ⟨rfl, rfl⟩

theorem process_blueflame_of_no_datecols {em : EmpMap} {t : BFTable}
    {fn : String} {ny : Nat}
    (hdc : (t.cols.map (fun c => strStrip c)).filter isDateHeader = []) :
    process_blueflame em t fn ny = [] := by
  simp [process_blueflame, hdc]

theorem process_blueflame_of_no_usercol {em : EmpMap} {t : BFTable}
    {fn : String} {ny : Nat}
    (huc : pickUserCol (t.cols.map (fun c => strStrip c)) = none) :
    process_blueflame em t fn ny = [] := by
  simp only [process_blueflame, huc]
  split_ifs <;> rfl

theorem process_blueflame_eq_bfGroup {em : EmpMap} {t : BFTable}
    {fn : String} {ny : Nat} {userCol : String}
    (huc : pickUserCol (t.cols.map (fun c => strStrip c)) = some userCol) :
    process_blueflame em t fn ny = [] ∨
    process_blueflame em t fn ny =
      bfGroup ((bfEntries em (t.cols.map (fun c => strStrip c)) t.rows userCol
          ((t.cols.map (fun c => strStrip c)).filter isDateHeader)
          (bfYearChars fn ny)).filter
        (fun e => bfEmailKeep e.email && e.date.isSome)) := by
  simp only [process_blueflame, huc]
  by_cases hdc : ((t.cols.map (fun c => strStrip c)).filter isDateHeader).isEmpty = true
  · rw [if_pos hdc]
    exact Or.inl rfl
  · rw [if_neg hdc]
    exact Or.inr rfl

/-- Anatomy of any record of `process_blueflame`: it comes from a kept
entry whose key matches the record's fields, carries the two constant
columns, and its count is the group sum over kept entries of its key. -/
theorem mem_process_blueflame {em : EmpMap} {t : BFTable} {fn : String}
    {ny : Nat} {r : UsageRecord} (hr : r ∈ process_blueflame em t fn ny) :
    ∃ userCol, pickUserCol (t.cols.map (fun c => strStrip c)) = some userCol ∧
    ∃ e ∈ (bfEntries em (t.cols.map (fun c => strStrip c)) t.rows userCol
          ((t.cols.map (fun c => strStrip c)).filter isDateHeader)
          (bfYearChars fn ny)).filter
        (fun e => bfEmailKeep e.email && e.date.isSome),
      bfKeyOf e = (r.date, r.email, r.name, r.department) ∧
      r.tool = "BlueFlame" ∧ r.feature = "BlueFlame Messages" := by
  cases huc : pickUserCol (t.cols.map (fun c => strStrip c)) with
  | none =>
    rw [process_blueflame_of_no_usercol huc] at hr
    exact absurd hr (List.not_mem_nil r)
  | some userCol =>
    rcases @process_blueflame_eq_bfGroup em t fn ny userCol huc with hpb | hpb
    · rw [hpb] at hr
      exact absurd hr (List.not_mem_nil r)
    · rw [hpb] at hr
      obtain ⟨k, hk, hrk⟩ := List.mem_map.1 hr
      rw [mem_firstKeys] at hk
      obtain ⟨e, he, hek⟩ := List.mem_map.1 hk.2
      refine ⟨userCol, rfl, e, he, ?_, ?_, ?_⟩
      · rw [hek, ← hrk]
      · rw [← hrk]
      · rw [← hrk]

/-! ## Structure of the unified result -/

theorem unified_rows (em : EmpMap) (ny : Nat) (pp : String → Option Date)
    (bf : List BFFile) (oa : List (List OpenAIRow)) :
    (get_unified_data em ny pp bf oa).rows =
      dropDupRecs (allRecords em ny pp bf oa) [] := by
  rw [get_unified_data]
  split_ifs with h
  · obtain ⟨h1, h2⟩ := h
    rw [List.isEmpty_iff] at h1 h2
    subst h1
    subst h2
    rfl
  · rfl

theorem unified_schema (em : EmpMap) (ny : Nat) (pp : String → Option Date)
    (bf : List BFFile) (oa : List (List OpenAIRow)) :
    (get_unified_data em ny pp bf oa).schema = usageSchema := by
  rw [get_unified_data]
  split_ifs <;> rfl

theorem department_of_mem_allRecords {em : EmpMap} {ny : Nat}
    {pp : String → Option Date} {bf : List BFFile} {oa : List (List OpenAIRow)}
    {r : UsageRecord} (hr : r ∈ allRecords em ny pp bf oa) :
    r.department = mapGet em r.email := by
  simp only [allRecords, List.mem_flatten, List.mem_append, List.mem_map] at hr
  obtain ⟨sub, hsub, hrsub⟩ := hr
  rcases hsub with ⟨f, -, rfl⟩ | ⟨rows, -, rfl⟩
  · obtain ⟨uc, -, e, he, hek, -, -⟩ := mem_process_blueflame hrsub
    have hnd := bfEntries_name_dept (List.mem_of_mem_filter he)
    have h1 : e.email = r.email := congrArg (fun k => k.2.1) hek
    have h2 : e.department = r.department := congrArg (fun k => k.2.2.2) hek
    rw [← h2, ← h1]
    exact hnd.2
  · obtain ⟨row, -, hrow⟩ := List.mem_flatMap.1 hrsub
    have h := mem_openaiRowRecords hrow
    rw [h.2.1, h.1]

theorem dkey_mem_unified (em : EmpMap) (ny : Nat) (pp : String → Option Date)
    (bf : List BFFile) (oa : List (List OpenAIRow))
    (k : Option Date × String × String × String) :
    k ∈ (get_unified_data em ny pp bf oa).rows.map dkey ↔
      k ∈ (allRecords em ny pp bf oa).map dkey := by
  rw [unified_rows, dkey_mem_dropDupRecs]
  simp

/-! ## The roster map resolves to the last occurrence -/

theorem assocGet_dropDupKeepLast (l : List (String × String)) (e : String) :
    assocGet (dropDupKeepLast l) e =
      ((l.filter (fun q => decide (q.1 = e))).getLast?).map (fun q => q.2) := by
  induction l with
  | nil => rfl
  | cons p rest ih =>
    rw [dropDupKeepLast]
    by_cases hdup : rest.any (fun q => q.1 == p.1)
    · rw [if_pos hdup, List.nil_append, ih]
      by_cases hpe : p.1 = e
      · have hne : rest.filter (fun q => decide (q.1 = e)) ≠ [] := by
          rw [List.any_eq_true] at hdup
          obtain ⟨q, hq, hq1⟩ := hdup
          have hqe : q.1 = e := by
            rw [(by simpa using hq1 : q.1 = p.1), hpe]
          intro hnil
          have hmem : q ∈ rest.filter (fun q => decide (q.1 = e)) :=
            List.mem_filter.2 ⟨hq, by simp [hqe]⟩
          rw [hnil] at hmem
          exact absurd hmem (List.not_mem_nil q)
        rw [List.filter_cons_of_pos (by simp [hpe])]
        obtain ⟨x, xs, hfr⟩ := List.exists_cons_of_ne_nil hne
        rw [hfr, List.getLast?_cons_cons]
      · rw [List.filter_cons_of_neg (by simp [hpe])]
    · rw [if_neg hdup, List.singleton_append]
      by_cases hpe : p.1 = e
      · have hfr : rest.filter (fun q => decide (q.1 = e)) = [] := by
          rw [List.filter_eq_nil_iff]
          intro q hq
          simp only [decide_eq_true_eq]
          intro hqe
          rw [List.any_eq_true] at hdup
          exact hdup ⟨q, hq, by simp [hqe, hpe]⟩
        rw [List.filter_cons_of_pos (by simp [hpe]), hfr]
        simp [assocGet, hpe]
      · rw [List.filter_cons_of_neg (by simp [hpe])]
        simp only [assocGet, if_neg hpe]
        exact ih

/-! ## The claims -/

/-- C8: for every roster whose rows, after identity normalization
(lowercase, trim), contain a given identity possibly several times, the
employee map binds that identity to the department of the row appearing
last in the file, so resolution returns that last department. -/
theorem claim_C8 (roster : List (String × String)) (e dep : String)
    (h : ((roster.map (fun p => (strStrip (strLower p.1), strStrip p.2))).filter
        (fun q => decide (q.1 = e))).getLast? = some (e, dep)) :
    mapGet (buildEmployeeMap roster) e = dep := by
  rw [mapGet, buildEmployeeMap, assocGet_dropDupKeepLast, h]
  rfl

/-- C8 witness: a roster with two rows normalizing to the same identity
resolves to the later department. -/
theorem claim_C8_witness :
    mapGet (buildEmployeeMap [("A@x.com", "R1"), ("a@x.com ", "R2")]) "a@x.com" = "R2" :=
  claim_C8 [("A@x.com", "R1"), ("a@x.com ", "R2")] "a@x.com" "R2" (by decide)

/-- C9: every record of the unified output resolves its department by an
exact lookup of its normalized email in the roster map — the mapped
department when the key is present, the sentinel `"Unassigned"` when it
is not (in particular whenever no roster was loaded, i.e. the map is
empty). -/
theorem claim_C9 (em : EmpMap) (ny : Nat) (pp : String → Option Date)
    (bf : List BFFile) (oa : List (List OpenAIRow)) (r : UsageRecord)
    (hr : r ∈ (get_unified_data em ny pp bf oa).rows) :
    (∀ d, assocGet em r.email = some d → r.department = d) ∧
    (assocGet em r.email = none → r.department = "Unassigned") := by
  rw [unified_rows] at hr
  have h := department_of_mem_allRecords (mem_of_mem_dropDupRecs hr)
  constructor
  · intro d hd
    rw [h, mapGet, hd]
  · intro hd
    rw [h, mapGet, hd]

/-- C9 witness: with a one-entry roster map, the emitted record carries
the mapped department. -/
theorem claim_C9_witness :
    (∀ d, assocGet [("a@b.c", "Ops")]
        (UsageRecord.email ⟨some ⟨2025, 10, 1⟩, "a@b.c", "A", "Ops",
          "ChatGPT", "Standard Chat", 1⟩) = some d →
      UsageRecord.department ⟨some ⟨2025, 10, 1⟩, "a@b.c", "A", "Ops",
        "ChatGPT", "Standard Chat", 1⟩ = d) ∧
    (assocGet [("a@b.c", "Ops")]
        (UsageRecord.email ⟨some ⟨2025, 10, 1⟩, "a@b.c", "A", "Ops",
          "ChatGPT", "Standard Chat", 1⟩) = none →
      UsageRecord.department ⟨some ⟨2025, 10, 1⟩, "a@b.c", "A", "Ops",
        "ChatGPT", "Standard Chat", 1⟩ = "Unassigned") :=
  claim_C9 [("a@b.c", "Ops")] 0 (fun _ => some ⟨2025, 10, 1⟩) []
    [[⟨"a@b.c", some "2025-10-01", 1, 0, 0, 0⟩]]
    ⟨some ⟨2025, 10, 1⟩, "a@b.c", "A", "Ops", "ChatGPT", "Standard Chat", 1⟩
    (by decide)

/-- C7: when no input file yields any record — in particular with empty
file lists — the unified result has zero rows but still carries the full
seven-column `UsageRecord` schema. -/
theorem claim_C7 (em : EmpMap) (ny : Nat) (pp : String → Option Date)
    (bf : List BFFile) (oa : List (List OpenAIRow))
    (hbf : ∀ f ∈ bf, process_blueflame em f.table f.filename ny = [])
    (hoa : ∀ rows ∈ oa, process_openai em pp rows = []) :
    (get_unified_data em ny pp bf oa).rows = [] ∧
    (get_unified_data em ny pp bf oa).schema = usageSchema := by
  have hall : allRecords em ny pp bf oa = [] := by
    rw [allRecords, List.flatten_eq_nil_iff]
    intro l hl
    rcases List.mem_append.1 hl with h | h
    · obtain ⟨f, hf, rfl⟩ := List.mem_map.1 h
      exact hbf f hf
    · obtain ⟨rows, hrow, rfl⟩ := List.mem_map.1 h
      exact hoa rows hrow
  refine ⟨?_, unified_schema em ny pp bf oa⟩
  rw [unified_rows, hall]
  rfl

/-- C7 witness: the run with empty file lists. -/
theorem claim_C7_witness :
    (get_unified_data [] 0 (fun _ => none) [] []).rows = [] ∧
    (get_unified_data [] 0 (fun _ => none) [] []).schema = usageSchema :=
  claim_C7 [] 0 (fun _ => none) [] [] (by simp) (by simp)

/-- C2: in the unified output, every kept record is the first record of
the concatenated input carrying its `(Date, Email, Tool, Feature)` key;
every key of the concatenated input is still represented; and each key
appears at most once — so later records with a seen key are silently
dropped. -/
theorem claim_C2 (em : EmpMap) (ny : Nat) (pp : String → Option Date)
    (bf : List BFFile) (oa : List (List OpenAIRow)) :
    (∀ r ∈ (get_unified_data em ny pp bf oa).rows,
      (allRecords em ny pp bf oa).find? (fun b => decide (dkey b = dkey r)) = some r) ∧
    (∀ r ∈ allRecords em ny pp bf oa,
      ∃ s ∈ (get_unified_data em ny pp bf oa).rows, dkey s = dkey r) ∧
    (∀ r ∈ (get_unified_data em ny pp bf oa).rows,
      ∀ s ∈ (get_unified_data em ny pp bf oa).rows, dkey r = dkey s → r = s) := by
  refine ⟨?_, ?_, ?_⟩
  · intro r hr
    rw [unified_rows] at hr
    exact ((mem_dropDupRecs _ _ _).1 hr).2
  · intro r hr
    have hs : ((allRecords em ny pp bf oa).find?
        (fun b => decide (dkey b = dkey r))).isSome := by
      rw [List.find?_isSome]
      exact ⟨r, hr, by simp⟩
    obtain ⟨s, hsf⟩ := Option.isSome_iff_exists.1 hs
    have hks : dkey s = dkey r := by simpa using List.find?_some hsf
    refine ⟨s, ?_, hks⟩
    rw [unified_rows, mem_dropDupRecs]
    refine ⟨by simp, ?_⟩
    rw [show (fun b => decide (dkey b = dkey s)) = (fun b => decide (dkey b = dkey r)) by
      funext b
      rw [hks]]
    exact hsf
  · intro r hr s hs hk
    rw [unified_rows] at hr hs
    have h1 := ((mem_dropDupRecs _ _ _).1 hr).2
    have h2 := ((mem_dropDupRecs _ _ _).1 hs).2
    rw [show (fun b => decide (dkey b = dkey s)) = (fun b => decide (dkey b = dkey r)) by
      funext b
      rw [hk]] at h2
    rw [h1] at h2
    exact Option.some.inj h2

/-- C2 witness: with two long-format files contributing the same key, the
kept record is the first file's record. -/
theorem claim_C2_witness :
    (allRecords [] 0 (fun _ => some ⟨2025, 10, 1⟩) []
        [[⟨"a@b.c", some "2025-10-01", 1, 0, 0, 0⟩],
         [⟨"a@b.c", some "2025-10-01", 2, 0, 0, 0⟩]]).find?
      (fun b => decide (dkey b = dkey ⟨some ⟨2025, 10, 1⟩, "a@b.c", "A",
        "Unassigned", "ChatGPT", "Standard Chat", 1⟩)) =
    some ⟨some ⟨2025, 10, 1⟩, "a@b.c", "A", "Unassigned", "ChatGPT",
      "Standard Chat", 1⟩ :=
  (claim_C2 [] 0 (fun _ => some ⟨2025, 10, 1⟩) []
    [[⟨"a@b.c", some "2025-10-01", 1, 0, 0, 0⟩],
     [⟨"a@b.c", some "2025-10-01", 2, 0, 0, 0⟩]]).1
    ⟨some ⟨2025, 10, 1⟩, "a@b.c", "A", "Unassigned", "ChatGPT", "Standard Chat", 1⟩
    (by decide)

set_option maxHeartbeats 2000000 in
/-- C3 counterexample: swapping two long-format files that disagree only
in the count at a shared key changes which full row survives, so the
output row set is not order-independent. -/
theorem claim_C3_cex :
    (⟨some ⟨2025, 10, 1⟩, "a@b.c", "A", "Unassigned", "ChatGPT", "Standard Chat", 1⟩ :
        UsageRecord) ∈
      (get_unified_data [] 2026 (fun _ => some ⟨2025, 10, 1⟩) []
        [[⟨"a@b.c", some "2025-10-01", 1, 0, 0, 0⟩],
         [⟨"a@b.c", some "2025-10-01", 2, 0, 0, 0⟩]]).rows ∧
    (⟨some ⟨2025, 10, 1⟩, "a@b.c", "A", "Unassigned", "ChatGPT", "Standard Chat", 1⟩ :
        UsageRecord) ∉
      (get_unified_data [] 2026 (fun _ => some ⟨2025, 10, 1⟩) []
        [[⟨"a@b.c", some "2025-10-01", 2, 0, 0, 0⟩],
         [⟨"a@b.c", some "2025-10-01", 1, 0, 0, 0⟩]]).rows := by
  decide

/-- C3 amended: permuting the input file lists preserves the set of
`(Date, Email, Tool, Feature)` keys of the unified output, but not the
full rows — on a key collision across files the earlier file's record
wins, so the surviving counts depend on file order. -/
theorem claim_C3_amended (em : EmpMap) (ny : Nat) (pp : String → Option Date)
    {bf₁ bf₂ : List BFFile} {oa₁ oa₂ : List (List OpenAIRow)}
    (hbf : bf₁.Perm bf₂) (hoa : oa₁.Perm oa₂)
    (k : Option Date × String × String × String) :
    (k ∈ (get_unified_data em ny pp bf₁ oa₁).rows.map dkey ↔
      k ∈ (get_unified_data em ny pp bf₂ oa₂).rows.map dkey) := by
  rw [dkey_mem_unified, dkey_mem_unified]
  simp only [allRecords, List.mem_map, List.mem_flatten, List.mem_append,
    hbf.mem_iff, hoa.mem_iff]

set_option maxHeartbeats 2000000 in
/-- C3 amended witness: swapping two concrete long-format files keeps the
key membership of the output unchanged. -/
theorem claim_C3_amended_witness :
    ((some ⟨2025, 10, 1⟩, "a@b.c", "ChatGPT", "Standard Chat") ∈
      (get_unified_data [] 0 (fun _ => some ⟨2025, 10, 1⟩) []
        [[⟨"a@b.c", some "2025-10-01", 1, 0, 0, 0⟩],
         [⟨"a@b.c", some "2025-10-01", 2, 0, 0, 0⟩]]).rows.map dkey ↔
     (some ⟨2025, 10, 1⟩, "a@b.c", "ChatGPT", "Standard Chat") ∈
      (get_unified_data [] 0 (fun _ => some ⟨2025, 10, 1⟩) []
        [[⟨"a@b.c", some "2025-10-01", 2, 0, 0, 0⟩],
         [⟨"a@b.c", some "2025-10-01", 1, 0, 0, 0⟩]]).rows.map dkey) :=
  claim_C3_amended [] 0 (fun _ => some ⟨2025, 10, 1⟩) (List.Perm.refl [])
    (List.Perm.swap [⟨"a@b.c", some "2025-10-01", 2, 0, 0, 0⟩]
      [⟨"a@b.c", some "2025-10-01", 1, 0, 0, 0⟩] [])
    (some ⟨2025, 10, 1⟩, "a@b.c", "ChatGPT", "Standard Chat")

/-- C4 counterexample: the identity `"a@b"` fails the email-shape check
(no `'.'` after the `'@'`), yet the long-format normalizer emits a record
for it — the dot requirement is enforced only by the wide-format
normalizer. -/
theorem claim_C4_cex :
    matchEmailShape "a@b" = false ∧
    process_openai [] (fun _ => some ⟨2025, 1, 1⟩)
      [⟨"a@b", some "2025-01-01", 5, 0, 0, 0⟩] ≠ [] := by
  decide

/-- C4 amended: the wide-format normalizer only emits records whose
identity matches the full email-shape regex, while the long-format
normalizer only checks that the identity is nonempty and contains an
`'@'` — it does not require a `'.'` after the `'@'`. -/
theorem claim_C4_amended :
    (∀ (em : EmpMap) (t : BFTable) (fn : String) (ny : Nat) (r : UsageRecord),
      r ∈ process_blueflame em t fn ny → matchEmailShape r.email = true) ∧
    (∀ (em : EmpMap) (pp : String → Option Date) (rows : List OpenAIRow)
        (r : UsageRecord), r ∈ process_openai em pp rows →
      ¬ r.email = "" ∧ r.email.data.contains '@' = true) := by
  constructor
  · intro em t fn ny r hr
    obtain ⟨uc, -, e, he, hek, -, -⟩ := mem_process_blueflame hr
    have hemail : e.email = r.email := congrArg (fun k => k.2.1) hek
    have hkeep := (List.mem_filter.1 he).2
    rw [Bool.and_eq_true] at hkeep
    have h := hkeep.1
    rw [bfEmailKeep, Bool.and_eq_true, Bool.and_eq_true, Bool.and_eq_true] at h
    rw [← hemail]
    exact h.2
  · intro em pp rows r hr
    obtain ⟨row, -, hrow⟩ := List.mem_flatMap.1 hr
    have h := mem_openaiRowRecords hrow
    rw [h.1]
    exact ⟨h.2.2.2.1, h.2.2.2.2.1⟩

/-- C4 amended witness: a concrete long-format record carries a nonempty
identity containing an `'@'`. -/
theorem claim_C4_amended_witness :
    ¬ UsageRecord.email ⟨some ⟨2025, 1, 1⟩, "a@b", "A", "Unassigned",
        "ChatGPT", "Standard Chat", 5⟩ = "" ∧
    (UsageRecord.email ⟨some ⟨2025, 1, 1⟩, "a@b", "A", "Unassigned",
        "ChatGPT", "Standard Chat", 5⟩).data.contains '@' = true :=
  claim_C4_amended.2 [] (fun _ => some ⟨2025, 1, 1⟩)
    [⟨"a@b", some "2025-01-01", 5, 0, 0, 0⟩]
    ⟨some ⟨2025, 1, 1⟩, "a@b", "A", "Unassigned", "ChatGPT", "Standard Chat", 5⟩
    (by decide)

/-- C5 counterexample: the identity `"sum@a.com"` contains the blacklist
token `"sum"`, yet the long-format normalizer emits a record for it —
only `"total"` is checked there. -/
theorem claim_C5_cex :
    strHasSubstr "sum" (strLower "sum@a.com") = true ∧
    process_openai [] (fun _ => some ⟨2025, 1, 1⟩)
      [⟨"sum@a.com", some "2025-01-01", 3, 0, 0, 0⟩] ≠ [] := by
  decide

/-- C5 amended: the wide-format normalizer excludes identities containing
any of the case-insensitive tokens total/sum/average/count; the
long-format normalizer excludes only identities containing `"total"`. -/
theorem claim_C5_amended :
    (∀ (em : EmpMap) (t : BFTable) (fn : String) (ny : Nat) (r : UsageRecord),
      r ∈ process_blueflame em t fn ny → bfBlacklistHit r.email = false) ∧
    (∀ (em : EmpMap) (pp : String → Option Date) (rows : List OpenAIRow)
        (r : UsageRecord), r ∈ process_openai em pp rows →
      strHasSubstr "total" (strLower r.email) = false) := by
  constructor
  · intro em t fn ny r hr
    obtain ⟨uc, -, e, he, hek, -, -⟩ := mem_process_blueflame hr
    have hemail : e.email = r.email := congrArg (fun k => k.2.1) hek
    have hkeep := (List.mem_filter.1 he).2
    rw [Bool.and_eq_true] at hkeep
    have h := hkeep.1
    rw [bfEmailKeep, Bool.and_eq_true, Bool.and_eq_true, Bool.and_eq_true] at h
    rw [← hemail]
    simpa using h.1.2
  · intro em pp rows r hr
    obtain ⟨row, -, hrow⟩ := List.mem_flatMap.1 hr
    have h := mem_openaiRowRecords hrow
    rw [h.1]
    exact h.2.2.2.2.2.1

/-- C5 amended witness: a concrete long-format output record does not
contain the token `"total"`. -/
theorem claim_C5_amended_witness :
    strHasSubstr "total" (strLower (UsageRecord.email ⟨some ⟨2025, 1, 1⟩,
      "sum@a.com", "Sum", "Unassigned", "ChatGPT", "Standard Chat", 3⟩)) = false :=
  claim_C5_amended.2 [] (fun _ => some ⟨2025, 1, 1⟩)
    [⟨"sum@a.com", some "2025-01-01", 3, 0, 0, 0⟩]
    ⟨some ⟨2025, 1, 1⟩, "sum@a.com", "Sum", "Unassigned", "ChatGPT", "Standard Chat", 3⟩
    (by decide)

/-- C6 counterexample: with the `period_start` column absent (every
`row.get('period_start')` yields `None`, which `pd.to_datetime` turns
into `NaT` without raising), the long-format normalizer still emits a
record — with a null date — instead of yielding zero records. -/
theorem claim_C6_cex :
    process_openai [] (fun _ => none) [⟨"a@b.c", none, 1, 0, 0, 0⟩] =
      [⟨none, "a@b.c", "A", "Unassigned", "ChatGPT", "Standard Chat", 1⟩] := by
  decide

/-- C6 amended: a wide-format file with no date-shaped headers or no
identity column yields zero records, a long-format file with no identity
column yields zero records, and a row whose date string fails to parse
contributes no record in either normalizer (wide-format dates are always
parsed in the output; a raising long-format parse skips the row) — but a
long-format file whose `period_start` column is absent yields records
with a null date rather than zero records. -/
theorem claim_C6_amended :
    (∀ (em : EmpMap) (t : BFTable) (fn : String) (ny : Nat),
      (t.cols.map (fun c => strStrip c)).filter isDateHeader = [] →
        process_blueflame em t fn ny = []) ∧
    (∀ (em : EmpMap) (t : BFTable) (fn : String) (ny : Nat),
      pickUserCol (t.cols.map (fun c => strStrip c)) = none →
        process_blueflame em t fn ny = []) ∧
    (∀ (em : EmpMap) (pp : String → Option Date) (rows : List OpenAIRow),
      (∀ row ∈ rows, row.email = "") → process_openai em pp rows = []) ∧
    (∀ (em : EmpMap) (t : BFTable) (fn : String) (ny : Nat) (r : UsageRecord),
      r ∈ process_blueflame em t fn ny → r.date.isSome = true) ∧
    (∀ (em : EmpMap) (pp : String → Option Date) (row : OpenAIRow) (s : String),
      row.period_start = some s → pp s = none →
        openaiRowRecords em pp row = []) := by
  refine ⟨?_, ?_, ?_, ?_, ?_⟩
  · intro em t fn ny h
    exact process_blueflame_of_no_datecols h
  · intro em t fn ny h
    exact process_blueflame_of_no_usercol h
  · intro em pp rows h
    rw [process_openai, List.flatMap_eq_nil_iff]
    intro row hrow
    apply openaiRowRecords_of_email_empty
    rw [openaiEmail, h row hrow]
    decide
  · intro em t fn ny r hr
    obtain ⟨uc, -, e, he, hek, -, -⟩ := mem_process_blueflame hr
    have hkeep := (List.mem_filter.1 he).2
    rw [Bool.and_eq_true] at hkeep
    have hdate : e.date = r.date := congrArg (fun k => k.1) hek
    rw [← hdate]
    exact hkeep.2
  · intro em pp row s hs hp
    exact openaiRowRecords_of_bad_date hs hp

/-- C6 amended witness: a wide-format table without date-shaped headers
yields zero records. -/
theorem claim_C6_amended_witness :
    process_blueflame [] ⟨["User ID", "Notes"], [[some "a@b.c", some "5"]]⟩
      "f.csv" 2026 = [] :=
  claim_C6_amended.1 [] ⟨["User ID", "Notes"], [[some "a@b.c", some "5"]]⟩
    "f.csv" 2026 (by decide)

/-- Filtering one accepted long-format row's records down to the
`"Standard Chat"` feature keeps exactly the standard-chat record. -/
theorem openai_filter_standard (d : Option Date) (email name dept : String)
    (std tm gm pjm : Int) :
    ((((if std > 0 then
          [(⟨d, email, name, dept, "ChatGPT", "Standard Chat", std⟩ : UsageRecord)]
        else []) ++
        (if tm > 0 then
          [(⟨d, email, name, dept, "ChatGPT", "Tool Messages", tm⟩ : UsageRecord)]
        else []) ++
        (if gm > 0 then
          [(⟨d, email, name, dept, "ChatGPT", "GPT Messages", gm⟩ : UsageRecord)]
        else []) ++
        (if pjm > 0 then
          [(⟨d, email, name, dept, "ChatGPT", "Project Messages", pjm⟩ : UsageRecord)]
        else [])).filter
        (fun r => decide (r.feature = "Standard Chat"))).map (fun r => r.count)) =
    if std > 0 then [std] else [] := by
  split_ifs <;> simp [List.filter]

/-- C1: for every accepted long-format row, with
`sub_total = tool_messages + gpt_messages + project_messages`, the
emitted `"Standard Chat"` count equals the `messages` total itself when
`messages < sub_total`, and otherwise equals `messages - sub_total`
clamped at zero; a `"Standard Chat"` record is emitted exactly when that
residual is strictly positive. -/
theorem claim_C1 (em : EmpMap) (pp : String → Option Date) (row : OpenAIRow)
    (h1 : ¬ openaiEmail row = "")
    (h2 : (openaiEmail row).data.contains '@' = true)
    (h3 : strHasSubstr "total" (strLower (openaiEmail row)) = false)
    (h4 : (openaiDateOf pp row).isSome = true) :
    ((openaiRowRecords em pp row).filter
        (fun r => decide (r.feature = "Standard Chat"))).map (fun r => r.count) =
      if 0 < (if row.messages < row.tool_messages + row.gpt_messages + row.project_messages
          then row.messages
          else max (row.messages - (row.tool_messages + row.gpt_messages + row.project_messages)) 0)
      then [if row.messages < row.tool_messages + row.gpt_messages + row.project_messages
          then row.messages
          else max (row.messages - (row.tool_messages + row.gpt_messages + row.project_messages)) 0]
      else [] := by
  obtain ⟨d, hd⟩ := Option.isSome_iff_exists.1 h4
  rw [openaiRowRecords]
  rw [if_neg h1, if_neg (not_not_intro h2), if_neg (by simp [h3]), hd]
  rw [openai_filter_standard]
  rw [max_def]
  by_cases hlt : row.messages < row.tool_messages + row.gpt_messages + row.project_messages
  · rw [if_pos hlt, if_pos hlt]
    split_ifs <;>
      first
        | rfl
        | (exfalso; omega)
  · rw [if_neg hlt, if_neg hlt]
    split_ifs <;>
      first
        | rfl
        | (exfalso; omega)

/-- C1 witness: `messages = 12`, `tool_messages = 2` yields a standard
chat count of `10`. -/
theorem claim_C1_witness :
    ((openaiRowRecords [] (fun _ => some ⟨2025, 10, 1⟩)
        ⟨"bob@x.com", some "2025-10-01", 12, 2, 0, 0⟩).filter
        (fun r => decide (r.feature = "Standard Chat"))).map (fun r => r.count) =
      if 0 < (if (12 : Int) < 2 + 0 + 0 then 12 else max (12 - (2 + 0 + 0)) 0)
      then [if (12 : Int) < 2 + 0 + 0 then 12 else max (12 - (2 + 0 + 0)) 0]
      else [] :=
  claim_C1 [] (fun _ => some ⟨2025, 10, 1⟩)
    ⟨"bob@x.com", some "2025-10-01", 12, 2, 0, 0⟩
    (by decide) (by decide) (by decide) (by decide)

/-- C10: the per-file wide-format output has at most one record per
`(Date, Email)` pair — the remaining key columns are functions of the
email and constants — and that record's count is the sum of all positive
parsed cell values of that user and date in the file (within-file
collisions are summed by the `groupby`, not dropped). -/
theorem claim_C10 (em : EmpMap) (t : BFTable) (fn : String) (ny : Nat) :
    (∀ r ∈ process_blueflame em t fn ny, ∀ s ∈ process_blueflame em t fn ny,
      r.date = s.date → r.email = s.email → r = s) ∧
    (∀ userCol, pickUserCol (t.cols.map (fun c => strStrip c)) = some userCol →
      ∀ r ∈ process_blueflame em t fn ny,
        r.count = (((bfEntries em (t.cols.map (fun c => strStrip c)) t.rows userCol
            ((t.cols.map (fun c => strStrip c)).filter isDateHeader)
            (bfYearChars fn ny)).filter
          (fun e => decide (e.date = r.date ∧ e.email = r.email))).map
            (fun e => e.count)).sum) := by
  constructor
  · intro r hr s hs hdate hemail
    cases huc : pickUserCol (t.cols.map (fun c => strStrip c)) with
    | none =>
      rw [process_blueflame_of_no_usercol huc] at hr
      exact absurd hr (List.not_mem_nil r)
    | some uc =>
      rcases @process_blueflame_eq_bfGroup em t fn ny uc huc with hpb | hpb
      · rw [hpb] at hr
        exact absurd hr (List.not_mem_nil r)
      · rw [hpb] at hr hs
        obtain ⟨k₁, hk₁, hrk₁⟩ := List.mem_map.1 hr
        obtain ⟨k₂, hk₂, hrk₂⟩ := List.mem_map.1 hs
        rw [mem_firstKeys] at hk₁ hk₂
        obtain ⟨e₁, he₁, hek₁⟩ := List.mem_map.1 hk₁.2
        obtain ⟨e₂, he₂, hek₂⟩ := List.mem_map.1 hk₂.2
        have hnd₁ := bfEntries_name_dept (List.mem_of_mem_filter he₁)
        have hnd₂ := bfEntries_name_dept (List.mem_of_mem_filter he₂)
        have hr1 : r.date = k₁.1 := by rw [← hrk₁]
        have hr2 : r.email = k₁.2.1 := by rw [← hrk₁]
        have hs1 : s.date = k₂.1 := by rw [← hrk₂]
        have hs2 : s.email = k₂.2.1 := by rw [← hrk₂]
        have hn₁ : k₁.2.2.1 = nameOfEmail k₁.2.1 := by
          rw [← congrArg (fun x => x.2.2.1) hek₁, ← congrArg (fun x => x.2.1) hek₁]
          exact hnd₁.1
        have hn₂ : k₂.2.2.1 = nameOfEmail k₂.2.1 := by
          rw [← congrArg (fun x => x.2.2.1) hek₂, ← congrArg (fun x => x.2.1) hek₂]
          exact hnd₂.1
        have hd₁ : k₁.2.2.2 = mapGet em k₁.2.1 := by
          rw [← congrArg (fun x => x.2.2.2) hek₁, ← congrArg (fun x => x.2.1) hek₁]
          exact hnd₁.2
        have hd₂ : k₂.2.2.2 = mapGet em k₂.2.1 := by
          rw [← congrArg (fun x => x.2.2.2) hek₂, ← congrArg (fun x => x.2.1) hek₂]
          exact hnd₂.2
        have h1 : k₁.1 = k₂.1 := by rw [← hr1, ← hs1, hdate]
        have h2 : k₁.2.1 = k₂.2.1 := by rw [← hr2, ← hs2, hemail]
        have hkk : k₁ = k₂ :=
          Prod.ext h1 (Prod.ext h2 (Prod.ext (by rw [hn₁, hn₂, h2])
            (by rw [hd₁, hd₂, h2])))
        rw [← hrk₁, ← hrk₂, hkk]
  · intro uc huc r hr
    rcases @process_blueflame_eq_bfGroup em t fn ny uc huc with hpb | hpb
    · rw [hpb] at hr
      exact absurd hr (List.not_mem_nil r)
    · rw [hpb] at hr
      obtain ⟨k, hk, hrk⟩ := List.mem_map.1 hr
      rw [mem_firstKeys] at hk
      obtain ⟨e₀, he₀, hek₀⟩ := List.mem_map.1 hk.2
      have hP₀ := (List.mem_filter.1 he₀).2
      rw [Bool.and_eq_true] at hP₀
      have hnd₀ := bfEntries_name_dept (List.mem_of_mem_filter he₀)
      have hr1 : r.date = k.1 := by rw [← hrk]
      have hr2 : r.email = k.2.1 := by rw [← hrk]
      have he₀d : e₀.date = k.1 := congrArg (fun x => x.1) hek₀
      have he₀e : e₀.email = k.2.1 := congrArg (fun x => x.2.1) hek₀
      have he₀n : e₀.name = k.2.2.1 := congrArg (fun x => x.2.2.1) hek₀
      have he₀dep : e₀.department = k.2.2.2 := congrArg (fun x => x.2.2.2) hek₀
      have hrc : r.count =
          (((bfEntries em (t.cols.map (fun c => strStrip c)) t.rows uc
              ((t.cols.map (fun c => strStrip c)).filter isDateHeader)
              (bfYearChars fn ny)).filter
            (fun e => bfEmailKeep e.email && e.date.isSome)).filter
              (fun e => decide (bfKeyOf e = k)) |>.map (fun e => e.count)).sum := by
        rw [← hrk]
      have hcong : ∀ e ∈ bfEntries em (t.cols.map (fun c => strStrip c)) t.rows uc
          ((t.cols.map (fun c => strStrip c)).filter isDateHeader)
          (bfYearChars fn ny),
          (decide (bfKeyOf e = k) && (bfEmailKeep e.email && e.date.isSome)) =
          decide (e.date = r.date ∧ e.email = r.email) := by
        intro e he
        have hnd := bfEntries_name_dept he
        by_cases hq : e.date = r.date ∧ e.email = r.email
        · have h1 : e.date = k.1 := by rw [hq.1, hr1]
          have h2 : e.email = k.2.1 := by rw [hq.2, hr2]
          have h3 : e.name = k.2.2.1 := by
            rw [hnd.1, h2, ← he₀e, ← hnd₀.1, he₀n]
          have h4 : e.department = k.2.2.2 := by
            rw [hnd.2, h2, ← he₀e, ← hnd₀.2, he₀dep]
          have hke : bfKeyOf e = k :=
            Prod.ext h1 (Prod.ext h2 (Prod.ext h3 h4))
          have hkeep : bfEmailKeep e.email = true := by
            rw [h2, ← he₀e]
            exact hP₀.1
          have hsome : e.date.isSome = true := by
            rw [h1, ← he₀d]
            exact hP₀.2
          have hkeepr : bfEmailKeep r.email = true := by
            rw [← hq.2]
            exact hkeep
          have hsomer : r.date.isSome = true := by
            rw [← hq.1]
            exact hsome
          simp [hke, hkeepr, hsomer, hq]
        · have hke : ¬ bfKeyOf e = k := by
            intro hcontra
            apply hq
            have h1 : e.date = k.1 := congrArg (fun x => x.1) hcontra
            have h2 : e.email = k.2.1 := congrArg (fun x => x.2.1) hcontra
            exact ⟨by rw [h1, ← hr1], by rw [h2, ← hr2]⟩
          simp [hke, hq]
      rw [hrc, List.filter_filter, List.filter_congr hcong]

/-- C10 witness: a wide-format file with a usage row and a summary row;
the single kept record's count equals the group sum over its
(date, email) key. -/
theorem claim_C10_witness :
    UsageRecord.count ⟨some ⟨2025, 10, 25⟩, "alice@x.com", "Alice", "Research",
        "BlueFlame", "BlueFlame Messages", 5⟩ =
      (((bfEntries [("alice@x.com", "Research")]
          ((BFTable.mk ["User ID", "25-Oct"]
            [[some "Alice@X.com", some "5"], [some "Total", some "7"]]).cols.map
              (fun c => strStrip c))
          (BFTable.mk ["User ID", "25-Oct"]
            [[some "Alice@X.com", some "5"], [some "Total", some "7"]]).rows
          "User ID"
          (((BFTable.mk ["User ID", "25-Oct"]
            [[some "Alice@X.com", some "5"], [some "Total", some "7"]]).cols.map
              (fun c => strStrip c)).filter isDateHeader)
          (bfYearChars "BlueFlame_October2025.csv" 2026)).filter
        (fun e => decide (e.date = UsageRecord.date ⟨some ⟨2025, 10, 25⟩,
            "alice@x.com", "Alice", "Research", "BlueFlame",
            "BlueFlame Messages", 5⟩ ∧
          e.email = UsageRecord.email ⟨some ⟨2025, 10, 25⟩, "alice@x.com",
            "Alice", "Research", "BlueFlame", "BlueFlame Messages", 5⟩))).map
          (fun e => e.count)).sum :=
  (claim_C10 [("alice@x.com", "Research")]
    (BFTable.mk ["User ID", "25-Oct"]
      [[some "Alice@X.com", some "5"], [some "Total", some "7"]])
    "BlueFlame_October2025.csv" 2026).2 "User ID" (by decide)
    ⟨some ⟨2025, 10, 25⟩, "alice@x.com", "Alice", "Research", "BlueFlame",
      "BlueFlame Messages", 5⟩
    (by decide)

end AdoptionMetrics
